import Mathlib

/-
Verification of the wallet header-chain state machine
(src/chia/wallet/wallet_blockchain.py) against its specification.

The Python class WalletBlockchain is embedded as a pure state-passing
program.  Machine integers (uint32 heights, uint64 weights/timestamps,
bytes32 hashes) are modelled as Nat: the code performs no arithmetic that
can overflow these widths (only +1 on heights and comparisons).  Python
dictionaries are modelled as association lists with dict semantics
(overwrite on insert, KeyError on deleting a missing key).  Python
exceptions (KeyError, IndexError, AssertionError) are modelled as an
explicit error component of each operation's result, paired with the
state at the moment the exception is raised, so that partially applied
mutations remain observable.
-/

namespace Orchid

/-- Errors surfaced by the embedded Python code.  infiniteLoop marks a
point where the Python while-loop would not terminate (the model runs
out of fuel); the paired state is the state at that point. -/
inductive PyErr where
  | keyError
  | indexError
  | assertionError
  | infiniteLoop
deriving DecidableEq, Repr

/-- Error codes from chia.util.errors used by receive_block; validator
specific codes are collapsed into other. -/
inductive Err where
  | INVALID_PREV_BLOCK_HASH
  | INVALID_POSPACE
  | other (code : Nat)
deriving DecidableEq, Repr

/-- The result enum of chia.consensus.blockchain.ReceiveBlockResult. -/
inductive ReceiveBlockResult where
  | ADDED_TO_DB
  | NEW_PEAK
  | ADDED_AS_ORPHAN
  | INVALID_BLOCK
  | ALREADY_HAVE_BLOCK
  | DISCONNECTED_BLOCK
deriving DecidableEq, Repr

/-- BlockRecord: the consensus-relevant summary of one header block.
Fields are those read by wallet_blockchain.py: height, header_hash,
prev_hash, weight, is_transaction_block, timestamp. -/
structure BlockRecord where
  height : Nat
  header_hash : Nat
  prev_hash : Nat
  weight : Nat
  is_transaction_block : Bool
  timestamp : Option Nat
deriving DecidableEq, Repr

/-- The embedded transaction-block foliage of a header block; only the
timestamp field is read by this component. -/
structure FoliageTransactionBlock where
  timestamp : Nat
deriving DecidableEq, Repr

/-- HeaderBlock: the fields of chia.types.header_block.HeaderBlock read
by wallet_blockchain.py.  finished_sub_slots is only tested for
non-emptiness, so it is carried as a Bool. -/
structure HeaderBlock where
  height : Nat
  header_hash : Nat
  prev_header_hash : Nat
  weight : Nat
  has_finished_sub_slots : Bool
  foliage_transaction_block : Option FoliageTransactionBlock
deriving DecidableEq, Repr

/-- WeightProof: only recent_chain_data is read by this component; the
sub-epoch proofs are opaque to it and omitted. -/
structure WeightProof where
  recent_chain_data : List HeaderBlock
deriving DecidableEq, Repr

/-- Value stored in the _height_to_hash dictionary.  The Python field is
declared Dict of uint32 to bytes32, but the reorg loop of receive_block
(line 128) assigns a whole BlockRecord as the value, so the value type
is the sum of the two. -/
inductive HVal where
  | hash (h : Nat)
  | record (r : BlockRecord)
deriving DecidableEq, Repr

/-- Decidable equality for Except results, so that concrete runs can be
settled by evaluation. -/
instance {ε α : Type} [DecidableEq ε] [DecidableEq α] : DecidableEq (Except ε α) :=
  fun x y =>
    match x, y with
    | Except.ok a, Except.ok b =>
      if h : a = b then isTrue (by rw [h])
      else isFalse (fun hh => h (Except.ok.inj hh))
    | Except.error a, Except.error b =>
      if h : a = b then isTrue (by rw [h])
      else isFalse (fun hh => h (Except.error.inj hh))
    | Except.ok _, Except.error _ => isFalse (fun hh => Except.noConfusion hh)
    | Except.error _, Except.ok _ => isFalse (fun hh => Except.noConfusion hh)

/-- Lookup in a Python-dict association list. -/
def dictGet {α : Type} (d : List (Nat × α)) (k : Nat) : Option α :=
  match d with
  | [] => none
  | (k1, v) :: rest => if k1 = k then some v else dictGet rest k

/-- Insert/overwrite in a Python-dict association list, preserving
insertion order as CPython dicts do. -/
def dictInsert {α : Type} (d : List (Nat × α)) (k : Nat) (v : α) : List (Nat × α) :=
  match d with
  | [] => [(k, v)]
  | (k1, v1) :: rest =>
    if k1 = k then (k, v) :: rest else (k1, v1) :: dictInsert rest k v

/-- Deletion in a Python-dict association list; none models the
KeyError raised by del on a missing key. -/
def dictDel {α : Type} (d : List (Nat × α)) (k : Nat) : Option (List (Nat × α)) :=
  match d with
  | [] => none
  | (k1, v1) :: rest =>
    if k1 = k then some rest else (dictDel rest k).map (fun t => (k1, v1) :: t)

/-- The KeyValStore as used by WalletBlockchain: the two keys it ever
touches, SYNCED_WEIGHT_PROOF and PEAK_BLOCK, modelled as typed slots. -/
structure KeyValStore where
  synced_weight_proof : Option WeightProof
  peak_block : Option HeaderBlock
deriving DecidableEq, Repr

/-- The mutable state of a WalletBlockchain instance. -/
structure WalletBlockchain where
  _basic_store : KeyValStore
  synced_weight_proof : Option WeightProof
  _peak : Option HeaderBlock
  _height_to_hash : List (Nat × HVal)
  _block_records : List (Nat × BlockRecord)
  _latest_timestamp : Nat
deriving DecidableEq, Repr

/-- The two consensus constants read by receive_block. -/
structure Constants where
  SUB_SLOT_ITERS_STARTING : Nat
  DIFFICULTY_STARTING : Nat

/-- External collaborators of WalletBlockchain (weight-proof verifier,
header validator, difficulty adjustment, fork-point search), consumed as
black-box pure functions exactly as the source imports them. -/
structure Env where
  constants : Constants
  validate_finished_header_block :
    WalletBlockchain → HeaderBlock → Nat → Nat → Option Nat × Option Err
  get_next_sub_slot_iters_and_difficulty :
    Bool → BlockRecord → WalletBlockchain → Nat × Nat
  find_fork_point_in_chain :
    WalletBlockchain → BlockRecord → HeaderBlock → Int
  validate_weight_proof : WeightProof → Bool × List BlockRecord

def contains_block (s : WalletBlockchain) (header_hash : Nat) : Bool :=
  (dictGet s._block_records header_hash).isSome

def contains_height (s : WalletBlockchain) (height : Nat) : Bool :=
  (dictGet s._height_to_hash height).isSome

/-- height_to_hash lookup; Python raises KeyError on a missing height,
modelled by none. -/
def height_to_hash (s : WalletBlockchain) (height : Nat) : Option HVal :=
  dictGet s._height_to_hash height

/-- block_record lookup; Python raises KeyError on a missing hash,
modelled by none. -/
def block_record (s : WalletBlockchain) (header_hash : Nat) : Option BlockRecord :=
  dictGet s._block_records header_hash

def try_block_record (s : WalletBlockchain) (header_hash : Nat) : Option BlockRecord :=
  if contains_block s header_hash then block_record s header_hash else none

def add_block_record (s : WalletBlockchain) (r : BlockRecord) : WalletBlockchain :=
  { s with _block_records := dictInsert s._block_records r.header_hash r }

def get_peak_height (s : WalletBlockchain) : Nat :=
  match s._peak with
  | none => 0
  | some p => p.height

def get_latest_timestamp (s : WalletBlockchain) : Nat :=
  s._latest_timestamp

def get_peak_block (s : WalletBlockchain) : Option HeaderBlock :=
  match s._peak with
  | some p => some p
  | none => s._basic_store.peak_block

def set_peak_block (s : WalletBlockchain) (block : HeaderBlock)
    (timestamp : Option Nat) : WalletBlockchain :=
  let s1 := { s with
    _basic_store := { s._basic_store with peak_block := some block },
    _peak := some block }
  match timestamp with
  | some t => { s1 with _latest_timestamp := t }
  | none =>
    match block.foliage_transaction_block with
    | some ftb => { s1 with _latest_timestamp := ftb.timestamp }
    | none => s1

/-- Modelled from the spec: block_to_block_record, the external
block-record constructor (chia.consensus.full_block_to_block_record, not
under src/).  Per the spec's data model it deterministically summarizes
the header block's consensus fields: height, header hash, parent hash,
cumulative weight, and the optional transaction-block timestamp. -/
def block_to_block_record (block : HeaderBlock) : BlockRecord :=
  { height := block.height
    header_hash := block.header_hash
    prev_hash := block.prev_header_hash
    weight := block.weight
    is_transaction_block := block.foliage_transaction_block.isSome
    timestamp := block.foliage_transaction_block.map (fun f => f.timestamp) }

/-- The deletion loop of _rollback_to_height: deletes keys lo, lo+1,
..., lo+n-1 in ascending order, stopping with keyError (leaving earlier
deletions applied) when a key is missing, as Python del does. -/
def delRange (d : List (Nat × HVal)) (lo : Nat) :
    Nat → List (Nat × HVal) × Option PyErr
  | 0 => (d, none)
  | n + 1 =>
    match dictDel d lo with
    | none => (d, some PyErr.keyError)
    | some d1 => delRange d1 (lo + 1) n

/-- WalletBlockchain._rollback_to_height (lines 138-144): deletes the
height index entries in range(max(0, height), peak.height + 1) and then
removes the persisted PEAK_BLOCK. -/
def rollback_to_height (s : WalletBlockchain) (height : Int) :
    WalletBlockchain × Option PyErr :=
  match s._peak with
  | none => (s, none)
  | some peak =>
    let lo : Nat := height.toNat
    let n : Nat := peak.height + 1 - lo
    match delRange s._height_to_hash lo n with
    | (d, some e) => ({ s with _height_to_hash := d }, some e)
    | (d, none) =>
      ({ s with
          _height_to_hash := d,
          _basic_store := { s._basic_store with peak_block := none } }, none)

/-- The while-loop of receive_block (lines 125-133): walks from the new
record back to the fork height, writing the record itself (not its hash:
line 128) into the height index and raising the running timestamp.
Returns the updated height index, the final timestamp, and the error if
a parent lookup fails (KeyError) or the walk would not terminate. -/
def reorgWalk (brs : List (Nat × BlockRecord)) (fork_height : Int) :
    Nat → BlockRecord → Nat → List (Nat × HVal) →
    List (Nat × HVal) × Nat × Option PyErr
  | 0, _, ts, h2h => (h2h, ts, some PyErr.infiniteLoop)
  | fuel + 1, curr, ts, h2h =>
    if (curr.height : Int) > fork_height then
      let h2h1 := dictInsert h2h curr.height (HVal.record curr)
      let ts1 :=
        match curr.timestamp with
        | some t => if t > ts then t else ts
        | none => ts
      if curr.height = 0 then (h2h1, ts1, none)
      else
        match dictGet brs curr.prev_hash with
        | none => (h2h1, ts1, some PyErr.keyError)
        | some prev => reorgWalk brs fork_height fuel prev ts1 h2h1
    else (h2h, ts, none)

/-- The validation prefix of receive_block (lines 86-101): genesis uses
the starting constants, otherwise the parent record must be present and
the external difficulty adjustment runs; then the external header
validator runs.  An error value is the early-return result pair. -/
def receive_block_validate (env : Env) (s : WalletBlockchain)
    (block : HeaderBlock) : Except (ReceiveBlockResult × Option Err) Nat :=
  let sd : Except (ReceiveBlockResult × Option Err) (Nat × Nat) :=
    if block.height = 0 then
      Except.ok (env.constants.SUB_SLOT_ITERS_STARTING, env.constants.DIFFICULTY_STARTING)
    else
      match try_block_record s block.prev_header_hash with
      | none =>
        Except.error (ReceiveBlockResult.DISCONNECTED_BLOCK, some Err.INVALID_PREV_BLOCK_HASH)
      | some prev_b =>
        Except.ok (env.get_next_sub_slot_iters_and_difficulty
          block.has_finished_sub_slots prev_b s)
  match sd with
  | Except.error e => Except.error e
  | Except.ok (sub_slot_iters, difficulty) =>
    match env.validate_finished_header_block s block difficulty sub_slot_iters with
    | (_, some e) => Except.error (ReceiveBlockResult.INVALID_BLOCK, some e)
    | (none, none) =>
      Except.error (ReceiveBlockResult.INVALID_BLOCK, some Err.INVALID_POSPACE)
    | (some required_iters, none) => Except.ok required_iters

/-- The success continuation of receive_block (lines 103-136), entered
after validation produced required_iters: build and add the block
record, then apply the fork-choice rule. -/
def receive_block_success (env : Env) (s : WalletBlockchain)
    (block : HeaderBlock) :
    WalletBlockchain × Except PyErr (ReceiveBlockResult × Option Err) :=
  let br := block_to_block_record block
  let s1 := add_block_record s br
  match s1._peak with
  | none =>
    let latest_timestamp : Option Nat :=
      if br.is_transaction_block then br.timestamp else none
    let s2 := { s1 with
      _height_to_hash := dictInsert s1._height_to_hash br.height (HVal.hash br.header_hash) }
    (set_peak_block s2 block latest_timestamp,
      Except.ok (ReceiveBlockResult.NEW_PEAK, none))
  | some peak =>
    if br.weight > peak.weight then
      let fork_height : Int :=
        if br.prev_hash = peak.header_hash then (peak.height : Int)
        else env.find_fork_point_in_chain s1 br peak
      match rollback_to_height s1 fork_height with
      | (s2, some e) => (s2, Except.error e)
      | (s2, none) =>
        match reorgWalk s2._block_records fork_height
            (s2._block_records.length + 2) br s2._latest_timestamp
            s2._height_to_hash with
        | (h2h, _, some e) =>
          ({ s2 with _height_to_hash := h2h }, Except.error e)
        | (h2h, ts, none) =>
          (set_peak_block { s2 with _height_to_hash := h2h } block (some ts),
            Except.ok (ReceiveBlockResult.NEW_PEAK, none))
    else (s1, Except.ok (ReceiveBlockResult.ADDED_AS_ORPHAN, none))

/-- WalletBlockchain.receive_block (lines 83-136). -/
def receive_block (env : Env) (s : WalletBlockchain) (block : HeaderBlock) :
    WalletBlockchain × Except PyErr (ReceiveBlockResult × Option Err) :=
  if contains_block s block.header_hash then
    (s, Except.ok (ReceiveBlockResult.ALREADY_HAVE_BLOCK, none))
  else
    match receive_block_validate env s block with
    | Except.error r => (s, Except.ok r)
    | Except.ok _ => receive_block_success env s block

/-- The record loop of new_weight_proof (lines 73-79): for each record,
insert height to header_hash, add the block record, and raise the
running timestamp from transaction-block timestamps; a transaction-block
record without a timestamp fails the assert (AssertionError), leaving
earlier and the current record's insertions applied. -/
def wpLoop (rs : List BlockRecord) (h2h : List (Nat × HVal))
    (brs : List (Nat × BlockRecord)) (ts : Nat) :
    List (Nat × HVal) × List (Nat × BlockRecord) × Nat × Option PyErr :=
  match rs with
  | [] => (h2h, brs, ts, none)
  | r :: rest =>
    let h2h1 := dictInsert h2h r.height (HVal.hash r.header_hash)
    let brs1 := dictInsert brs r.header_hash r
    if r.is_transaction_block then
      match r.timestamp with
      | none => (h2h1, brs1, ts, some PyErr.assertionError)
      | some t => wpLoop rest h2h1 brs1 (if t > ts then t else ts)
    else wpLoop rest h2h1 brs1 ts

/-- The tail of new_weight_proof after the staleness guard (lines
64-81): store and persist the proof, verify it when records are not
supplied, apply the records, and set the proof's tail as the peak. -/
def new_weight_proof_body (env : Env) (s : WalletBlockchain)
    (weight_proof : WeightProof) (records : Option (List BlockRecord)) :
    WalletBlockchain × Option PyErr :=
  let s1 := { s with
    synced_weight_proof := some weight_proof,
    _basic_store := { s._basic_store with synced_weight_proof := some weight_proof } }
  let latest_timestamp := s1._latest_timestamp
  let apply := fun (rs : List BlockRecord) =>
    match wpLoop rs s1._height_to_hash s1._block_records latest_timestamp with
    | (h2h, brs, _, some e) =>
      ({ s1 with _height_to_hash := h2h, _block_records := brs }, some e)
    | (h2h, brs, ts, none) =>
      let s2 := { s1 with _height_to_hash := h2h, _block_records := brs }
      match weight_proof.recent_chain_data.getLast? with
      | none => (s2, some PyErr.indexError)
      | some tail => (set_peak_block s2 tail (some ts), none)
  match records with
  | none =>
    match env.validate_weight_proof weight_proof with
    | (true, rs) => apply rs
    | (false, _) => (s1, some PyErr.assertionError)
  | some rs => apply rs

/-- WalletBlockchain.new_weight_proof (lines 58-81).  The staleness
guard short-circuits: recent_chain_data is only indexed when a peak
exists (IndexError on an empty tail otherwise happens inside the
body when the peak is set). -/
def new_weight_proof (env : Env) (s : WalletBlockchain)
    (weight_proof : WeightProof) (records : Option (List BlockRecord)) :
    WalletBlockchain × Option PyErr :=
  match get_peak_block s with
  | some peak =>
    match weight_proof.recent_chain_data.getLast? with
    | none => (s, some PyErr.indexError)
    | some tail =>
      if tail.weight ≤ peak.weight then (s, none)
      else new_weight_proof_body env s weight_proof records
  | none => new_weight_proof_body env s weight_proof records

/-- WalletBlockchain.create (lines 34-56): load the persisted weight
proof and peak, start with empty indices and zero timestamp, and
re-ingest the persisted proof when present. -/
def create (env : Env) (store : KeyValStore) : WalletBlockchain × Option PyErr :=
  let s : WalletBlockchain := {
    _basic_store := store,
    synced_weight_proof := store.synced_weight_proof,
    _peak := store.peak_block,
    _height_to_hash := [],
    _block_records := [],
    _latest_timestamp := 0 }
  match s.synced_weight_proof with
  | some wpv => new_weight_proof env s wpv none
  | none => (s, none)

/-
Concrete instantiations used for counterexamples and witnesses.
-/

/-- Modelled from the spec: find_fork_point_in_chain
(chia.consensus.find_fork_point, not under src/).  Walks the
higher-height cursor down via parent links through the block-record
index until both cursors meet at a common ancestor height; returns that
height, or -1 when no common ancestor is found or an ancestry lookup
fails. -/
def forkWalk (brs : List (Nat × BlockRecord)) :
    Nat → BlockRecord → BlockRecord → Int
  | 0, _, _ => -1
  | fuel + 1, b1, b2 =>
    if b2.height > b1.height then
      match dictGet brs b2.prev_hash with
      | some r => forkWalk brs fuel b1 r
      | none => -1
    else if b1.height > b2.height then
      match dictGet brs b1.prev_hash with
      | some r => forkWalk brs fuel r b2
      | none => -1
    else
      if b1.header_hash = b2.header_hash then (b1.height : Int)
      else if b1.height = 0 then -1
      else
        match dictGet brs b1.prev_hash, dictGet brs b2.prev_hash with
        | some r1, some r2 => forkWalk brs fuel r1 r2
        | _, _ => -1

/-- Modelled from the spec: entry point of the fork-point search, with
the peak header block viewed through its block-record summary. -/
def find_fork_point_model (s : WalletBlockchain) (b1 : BlockRecord)
    (peak : HeaderBlock) : Int :=
  let b2 := block_to_block_record peak
  forkWalk s._block_records (b1.height + b2.height + 2) b1 b2

/-- A concrete environment: the external header validator accepts every
block, difficulty adjustment is constant, the fork-point search is the
spec-modelled walk, and the weight-proof verifier accepts with no
records. -/
def envC : Env :=
  { constants := { SUB_SLOT_ITERS_STARTING := 1, DIFFICULTY_STARTING := 1 }
    validate_finished_header_block := fun _ _ _ _ => (some 1, none)
    get_next_sub_slot_iters_and_difficulty := fun _ _ _ => (1, 1)
    find_fork_point_in_chain := fun s r p => find_fork_point_model s r p
    validate_weight_proof := fun _ => (true, []) }

/-- A freshly created instance over an empty store. -/
def s0 : WalletBlockchain :=
  { _basic_store := { synced_weight_proof := none, peak_block := none }
    synced_weight_proof := none
    _peak := none
    _height_to_hash := []
    _block_records := []
    _latest_timestamp := 0 }

/-- Genesis header block for the extension scenario. -/
def gBlock : HeaderBlock :=
  { height := 0, header_hash := 100, prev_header_hash := 99, weight := 1,
    has_finished_sub_slots := false, foliage_transaction_block := none }

/-- Child of gBlock, strictly heavier. -/
def cBlock : HeaderBlock :=
  { height := 1, header_hash := 101, prev_header_hash := 100, weight := 2,
    has_finished_sub_slots := false, foliage_transaction_block := none }

/-- Block records of chain A (heights 0..10) for the reorg scenario:
header hash 100+i, parent 99+i, weight 10*i. -/
def aRec (i : Nat) : BlockRecord :=
  { height := i, header_hash := 100 + i, prev_hash := 99 + i, weight := 10 * i,
    is_transaction_block := false, timestamp := none }

def aRecords : List BlockRecord := (List.range 11).map aRec

/-- Header block of chain A's tip (height 10). -/
def a10Header : HeaderBlock :=
  { height := 10, header_hash := 110, prev_header_hash := 109, weight := 100,
    has_finished_sub_slots := false, foliage_transaction_block := none }

/-- Weight proof whose recent-chain tail is chain A's tip. -/
def wpA : WeightProof := { recent_chain_data := [a10Header] }

/-- Header blocks of chain B (heights 6..12), diverging from chain A
above the common ancestor at height 5: hash 200+j, parent 199+j except
that B6's parent is A5 (hash 105), weight 9*j (so B11 is not heavier
than A10, while B12 is). -/
def bBlock (j : Nat) : HeaderBlock :=
  { height := j, header_hash := 200 + j,
    prev_header_hash := if j = 6 then 105 else 199 + j, weight := 9 * j,
    has_finished_sub_slots := false, foliage_transaction_block := none }

/-- State after ingesting chain A via the weight proof. -/
def sA : WalletBlockchain := (new_weight_proof envC s0 wpA (some aRecords)).1

/-- State after additionally receiving chain B's blocks at heights 6..11
(all orphans). -/
def sB : WalletBlockchain :=
  (List.range 6).foldl (fun s j => (receive_block envC s (bBlock (6 + j))).1) sA

/-- The reorg-triggering call: chain B's block at height 12. -/
def reorgCall : WalletBlockchain × Except PyErr (ReceiveBlockResult × Option Err) :=
  receive_block envC sB (bBlock 12)

/-- A header block whose parent is unknown to the index. -/
def bDisc : HeaderBlock :=
  { height := 3, header_hash := 400, prev_header_hash := 399, weight := 5,
    has_finished_sub_slots := false, foliage_transaction_block := none }

/-- Header block persisted as peak in the restart scenario. -/
def a1Header : HeaderBlock :=
  { height := 1, header_hash := 301, prev_header_hash := 300, weight := 7,
    has_finished_sub_slots := false, foliage_transaction_block := none }

/-- Weight proof whose tail is a1Header, as persisted by a prior run. -/
def wpC3 : WeightProof := { recent_chain_data := [a1Header] }

/-- Store as left by a prior run: the weight proof and the matching peak
block are both persisted. -/
def storeC3 : KeyValStore :=
  { synced_weight_proof := some wpC3, peak_block := some a1Header }

/-- Environment whose verifier accepts wpC3 and derives a non-empty
record list from it. -/
def envC3 : Env :=
  { envC with validate_weight_proof :=
      fun _ => (true, [block_to_block_record a1Header]) }

/-- A weight proof whose tail is gBlock itself (weight 1), stale with
respect to a peak of weight 1. -/
def wpG : WeightProof := { recent_chain_data := [gBlock] }

/-- Environment whose weight-proof verifier rejects every proof. -/
def envFail : Env :=
  { envC with validate_weight_proof := fun _ => (false, []) }

/-- A block of the same weight as gBlock, with gBlock as parent: a tie
candidate for the fork-choice rule. -/
def eqBlock : HeaderBlock :=
  { height := 1, header_hash := 102, prev_header_hash := 100, weight := 1,
    has_finished_sub_slots := false, foliage_transaction_block := none }

/-- The peak's cumulative weight, 0 when no peak has been set. -/
def peakWeight (s : WalletBlockchain) : Nat :=
  match s._peak with
  | none => 0
  | some p => p.weight

/-- Folding a sequence of receive_block calls over a state. -/
def runBlocks (env : Env) (s : WalletBlockchain) (blocks : List HeaderBlock) :
    WalletBlockchain :=
  blocks.foldl (fun t b => (receive_block env t b).1) s

/-
Helper lemmas about the dictionary model and about which state
components each operation can touch.
-/

theorem dictGet_insert_self {α : Type} (d : List (Nat × α)) (k : Nat) (v : α) :
    dictGet (dictInsert d k v) k = some v := by
  induction d with
  | nil => simp [dictInsert, dictGet]
  | cons hd tl ih =>
    obtain ⟨k1, v1⟩ := hd
    by_cases h : k1 = k
    · simp [dictInsert, dictGet, h]
    · simp [dictInsert, dictGet, h, ih]

theorem rollback_fields (s : WalletBlockchain) (height : Int) :
    ((rollback_to_height s height).1)._peak = s._peak ∧
    ((rollback_to_height s height).1)._block_records = s._block_records ∧
    ((rollback_to_height s height).1)._latest_timestamp = s._latest_timestamp ∧
    ((rollback_to_height s height).1).synced_weight_proof = s.synced_weight_proof := by
  unfold rollback_to_height
  split
  · exact ⟨rfl, rfl, rfl, rfl⟩
  · dsimp only
    split <;> exact ⟨rfl, rfl, rfl, rfl⟩

theorem set_peak_block_fields (s : WalletBlockchain) (block : HeaderBlock)
    (timestamp : Option Nat) :
    (set_peak_block s block timestamp)._peak = some block ∧
    (set_peak_block s block timestamp)._block_records = s._block_records ∧
    (set_peak_block s block timestamp)._height_to_hash = s._height_to_hash ∧
    (set_peak_block s block timestamp).synced_weight_proof = s.synced_weight_proof := by
  unfold set_peak_block
  cases timestamp with
  | some t => exact ⟨rfl, rfl, rfl, rfl⟩
  | none =>
    cases block.foliage_transaction_block with
    | none => exact ⟨rfl, rfl, rfl, rfl⟩
    | some ftb => exact ⟨rfl, rfl, rfl, rfl⟩

theorem set_peak_block_timestamp_some (s : WalletBlockchain) (block : HeaderBlock)
    (t : Nat) : (set_peak_block s block (some t))._latest_timestamp = t := rfl

theorem reorgWalk_ts_le (brs : List (Nat × BlockRecord)) (fork_height : Int) :
    ∀ (fuel : Nat) (curr : BlockRecord) (ts : Nat) (h2h : List (Nat × HVal)),
    ts ≤ (reorgWalk brs fork_height fuel curr ts h2h).2.1 := by
  intro fuel
  induction fuel with
  | zero => intro curr ts h2h; exact Nat.le_refl ts
  | succ n ih =>
    intro curr ts h2h
    unfold reorgWalk
    by_cases hgt : (curr.height : Int) > fork_height
    · simp only [hgt, if_true]
      have hts : ts ≤ (match curr.timestamp with
          | some t => if t > ts then t else ts
          | none => ts) := by
        cases h : curr.timestamp with
        | none => exact Nat.le_refl ts
        | some t =>
          simp only
          by_cases hlt : t > ts
          · simp only [hlt, if_true]; exact Nat.le_of_lt hlt
          · simp only [hlt, if_false]; exact Nat.le_refl ts
      by_cases h0 : curr.height = 0
      · simp only [h0, if_true]; exact hts
      · simp only [h0, if_false]
        cases hl : dictGet brs curr.prev_hash with
        | none => exact hts
        | some prev => exact Nat.le_trans hts (ih prev _ _)
    · simp only [hgt, if_false]; exact Nat.le_refl ts

theorem wpLoop_ts_le (rs : List BlockRecord) :
    ∀ (h2h : List (Nat × HVal)) (brs : List (Nat × BlockRecord)) (ts : Nat),
    ts ≤ (wpLoop rs h2h brs ts).2.2.1 := by
  induction rs with
  | nil => intro h2h brs ts; exact Nat.le_refl ts
  | cons r rest ih =>
    intro h2h brs ts
    unfold wpLoop
    by_cases htx : r.is_transaction_block
    · simp only [htx, if_true]
      cases hts : r.timestamp with
      | none => exact Nat.le_refl ts
      | some t =>
        simp only
        by_cases hlt : t > ts
        · simp only [hlt, if_true]
          exact Nat.le_trans (Nat.le_of_lt hlt) (ih _ _ t)
        · simp only [hlt, if_false]; exact ih _ _ ts
    · simp only [htx, if_false]; exact ih _ _ ts

theorem rollback_pair_fields (s : WalletBlockchain) (h : Int)
    (t : WalletBlockchain) (e : Option PyErr)
    (heq : rollback_to_height s h = (t, e)) :
    t._peak = s._peak ∧ t._block_records = s._block_records ∧
    t._latest_timestamp = s._latest_timestamp := by
  have h1 := (rollback_fields s h).1
  have h2 := (rollback_fields s h).2.1
  have h3 := (rollback_fields s h).2.2.1
  rw [heq] at h1 h2 h3
  exact ⟨h1, h2, h3⟩

theorem receive_block_validate_error_shape (env : Env) (s : WalletBlockchain)
    (block : HeaderBlock) (res : ReceiveBlockResult) (e : Option Err)
    (h : receive_block_validate env s block = Except.error (res, e)) :
    res = ReceiveBlockResult.DISCONNECTED_BLOCK ∨
    res = ReceiveBlockResult.INVALID_BLOCK := by
  unfold receive_block_validate at h
  dsimp only at h
  split at h
  · rename_i e1 heq
    split at heq
    · simp_all
    · split at heq <;> simp_all
  · split at h <;> simp_all

theorem receive_block_success_records (env : Env) (s : WalletBlockchain)
    (block : HeaderBlock) :
    ((receive_block_success env s block).1)._block_records
      = dictInsert s._block_records block.header_hash (block_to_block_record block) := by
  unfold receive_block_success
  dsimp only
  split
  · exact (set_peak_block_fields _ _ _).2.1
  · split
    · split
      · rename_i heq
        exact (rollback_pair_fields _ _ _ _ heq).2.1
      · rename_i heq
        split
        · exact (rollback_pair_fields _ _ _ _ heq).2.1
        · exact ((set_peak_block_fields _ _ _).2.1).trans
            (rollback_pair_fields _ _ _ _ heq).2.1
    · rfl

theorem receive_block_success_ok_shape (env : Env) (s : WalletBlockchain)
    (block : HeaderBlock) (res : ReceiveBlockResult) (e : Option Err)
    (h : (receive_block_success env s block).2 = Except.ok (res, e)) :
    (res = ReceiveBlockResult.NEW_PEAK ∨
     res = ReceiveBlockResult.ADDED_AS_ORPHAN) ∧ e = none := by
  unfold receive_block_success at h
  dsimp only at h
  split at h
  · simp_all
  · split at h
    · split at h
      · simp_all
      · split at h <;> simp_all
    · simp_all

theorem receive_block_success_peak (env : Env) (s : WalletBlockchain)
    (block : HeaderBlock) :
    ((receive_block_success env s block).1)._peak = s._peak ∨
    (((receive_block_success env s block).1)._peak = some block ∧
     (receive_block_success env s block).2
       = Except.ok (ReceiveBlockResult.NEW_PEAK, none) ∧
     (s._peak = none ∨
      ∃ p, s._peak = some p ∧ p.weight < (block_to_block_record block).weight)) := by
  unfold receive_block_success
  dsimp only
  split
  · rename_i hpk
    exact Or.inr ⟨(set_peak_block_fields _ _ _).1, rfl, Or.inl hpk⟩
  · rename_i peak hpk
    split
    · rename_i hgt
      split
      · rename_i heq
        exact Or.inl (rollback_pair_fields _ _ _ _ heq).1
      · rename_i heq
        split
        · exact Or.inl (rollback_pair_fields _ _ _ _ heq).1
        · exact Or.inr ⟨(set_peak_block_fields _ _ _).1, rfl,
            Or.inr ⟨peak, hpk, hgt⟩⟩
    · exact Or.inl rfl

theorem receive_block_success_eq_weight (env : Env) (s : WalletBlockchain)
    (block : HeaderBlock) (p : HeaderBlock)
    (hp : s._peak = some p)
    (hle : ¬ p.weight < (block_to_block_record block).weight) :
    receive_block_success env s block
      = (add_block_record s (block_to_block_record block),
         Except.ok (ReceiveBlockResult.ADDED_AS_ORPHAN, none)) := by
  unfold receive_block_success
  dsimp only
  have hp1 : (add_block_record s (block_to_block_record block))._peak = some p := hp
  rw [hp1]
  dsimp only
  rw [if_neg hle]

theorem receive_block_success_ts (env : Env) (s : WalletBlockchain)
    (block : HeaderBlock)
    (h0 : s._peak = none → s._latest_timestamp = 0) :
    s._latest_timestamp ≤ ((receive_block_success env s block).1)._latest_timestamp := by
  unfold receive_block_success
  dsimp only
  split
  · rename_i hpk
    rw [h0 hpk]
    exact Nat.zero_le _
  · split
    · split
      · rename_i heq
        exact Nat.le_of_eq ((rollback_pair_fields _ _ _ _ heq).2.2).symm
      · rename_i s2 heq
        split
        · exact Nat.le_of_eq ((rollback_pair_fields _ _ _ _ heq).2.2).symm
        · rename_i h2h ts hw
          have h1 : s2._latest_timestamp ≤ (h2h, ts, (none : Option PyErr)).2.1 := by
            rw [← hw]
            exact reorgWalk_ts_le _ _ _ _ _ _
          exact Nat.le_trans (Nat.le_of_eq ((rollback_pair_fields _ _ _ _ heq).2.2).symm) h1
    · exact Nat.le_refl _

theorem new_weight_proof_body_ts (env : Env) (s : WalletBlockchain)
    (wp : WeightProof) (records : Option (List BlockRecord)) :
    s._latest_timestamp ≤ ((new_weight_proof_body env s wp records).1)._latest_timestamp := by
  unfold new_weight_proof_body
  dsimp only
  split
  · split
    · rename_i rs hv
      split
      · exact Nat.le_refl _
      · rename_i h2h brs ts hl
        split
        · exact Nat.le_refl _
        · have h1 := wpLoop_ts_le rs s._height_to_hash s._block_records s._latest_timestamp
          rw [hl] at h1
          exact h1
    · exact Nat.le_refl _
  · rename_i rs
    split
    · exact Nat.le_refl _
    · rename_i h2h brs ts hl
      split
      · exact Nat.le_refl _
      · have h1 := wpLoop_ts_le rs s._height_to_hash s._block_records s._latest_timestamp
        rw [hl] at h1
        exact h1

theorem new_weight_proof_ts (env : Env) (s : WalletBlockchain) (wp : WeightProof)
    (records : Option (List BlockRecord)) :
    s._latest_timestamp ≤ ((new_weight_proof env s wp records).1)._latest_timestamp := by
  unfold new_weight_proof
  split
  · split
    · exact Nat.le_refl _
    · split
      · exact Nat.le_refl _
      · exact new_weight_proof_body_ts env s wp records
  · exact new_weight_proof_body_ts env s wp records

theorem new_weight_proof_stale (env : Env) (s : WalletBlockchain)
    (wp : WeightProof) (records : Option (List BlockRecord))
    (pk tail : HeaderBlock)
    (hpk : get_peak_block s = some pk)
    (ht : wp.recent_chain_data.getLast? = some tail)
    (hle : tail.weight ≤ pk.weight) :
    new_weight_proof env s wp records = (s, none) := by
  unfold new_weight_proof
  rw [hpk]
  dsimp only
  rw [ht]
  dsimp only
  rw [if_pos hle]

theorem receive_block_success_newpeak (env : Env) (s : WalletBlockchain)
    (block : HeaderBlock) (e : Option Err)
    (h : (receive_block_success env s block).2
      = Except.ok (ReceiveBlockResult.NEW_PEAK, e)) :
    s._peak = none ∨
    ∃ p, s._peak = some p ∧ p.weight < (block_to_block_record block).weight := by
  unfold receive_block_success at h
  dsimp only at h
  split at h
  · rename_i hpk
    exact Or.inl hpk
  · rename_i peak hpk
    split at h
    · rename_i hgt
      exact Or.inr ⟨peak, hpk, hgt⟩
    · simp at h

theorem peakWeight_step (env : Env) (s : WalletBlockchain) (block : HeaderBlock) :
    peakWeight s ≤ peakWeight (receive_block env s block).1 := by
  unfold receive_block
  split
  · exact Nat.le_refl _
  · split
    · exact Nat.le_refl _
    · rcases receive_block_success_peak env s block with h | ⟨h1, h2, h3⟩
      · have hw : peakWeight (receive_block_success env s block).1 = peakWeight s := by
          unfold peakWeight
          rw [h]
        rw [hw]
      · have hw : peakWeight (receive_block_success env s block).1 = block.weight := by
          unfold peakWeight
          rw [h1]
        rw [hw]
        rcases h3 with h0 | ⟨p, hp, hlt⟩
        · have hz : peakWeight s = 0 := by
            unfold peakWeight
            rw [h0]
          rw [hz]
          exact Nat.zero_le _
        · have hpw : peakWeight s = p.weight := by
            unfold peakWeight
            rw [hp]
          rw [hpw]
          exact Nat.le_of_lt hlt

theorem peakWeight_runBlocks (env : Env) (s : WalletBlockchain)
    (blocks : List HeaderBlock) :
    peakWeight s ≤ peakWeight (runBlocks env s blocks) := by
  induction blocks generalizing s with
  | nil => exact Nat.le_refl _
  | cons b rest ih =>
    exact Nat.le_trans (peakWeight_step env s b) (ih (receive_block env s b).1)

/-
Claim theorems.
-/

/-- C1: the height-index consistency invariant fails on the code.  After
receive_block adopts genesis and then its strictly heavier direct child
(both calls return NEW_PEAK), _rollback_to_height has deleted the entry
at the fork height itself (height 0, genesis, an ancestor of the peak)
and the re-population loop, which only covers heights strictly above the
fork, has written a whole BlockRecord instead of a header hash at
height 1: the index neither covers exactly the heights 0..peak nor
resolves heights to ancestor hashes. -/
theorem C1_height_index_bug :
    (receive_block envC s0 gBlock).2
      = Except.ok (ReceiveBlockResult.NEW_PEAK, none) ∧
    (receive_block envC (receive_block envC s0 gBlock).1 cBlock).2
      = Except.ok (ReceiveBlockResult.NEW_PEAK, none) ∧
    get_peak_height (receive_block envC (receive_block envC s0 gBlock).1 cBlock).1 = 1 ∧
    height_to_hash (receive_block envC (receive_block envC s0 gBlock).1 cBlock).1 0 = none ∧
    height_to_hash (receive_block envC (receive_block envC s0 gBlock).1 cBlock).1 1
      = some (HVal.record (block_to_block_record cBlock)) := by
  decide

/-- C2: the rollback-correctness scenario fails on the code.  Chain A
(heights 0..10) is adopted via a weight proof, chain B's blocks at
heights 6..11 arrive as orphans, and B's block at height 12 (fork point
5, strictly heavier) triggers the reorg and returns NEW_PEAK.
Afterwards heights 0..4 are unchanged (A's hashes) and A's discarded
records remain retrievable by hash, as claimed; but height 5 — on the
path to the new peak — has been deleted and never re-written, and
heights 6..12 map to whole BlockRecords of chain B instead of B's
header hashes. -/
theorem C2_rollback_reorg_bug :
    reorgCall.2 = Except.ok (ReceiveBlockResult.NEW_PEAK, none) ∧
    ((List.range 5).all fun h =>
      decide (height_to_hash reorgCall.1 h = some (HVal.hash (100 + h)))) = true ∧
    height_to_hash reorgCall.1 5 = none ∧
    ((List.range 7).all fun j =>
      decide (height_to_hash reorgCall.1 (6 + j)
        = some (HVal.record (block_to_block_record (bBlock (6 + j)))))) = true ∧
    ((List.range 6).all fun i =>
      decide (block_record reorgCall.1 (105 + i) = some (aRec (5 + i)))) = true ∧
    get_peak_height reorgCall.1 = 12 := by
  decide

/-- C3 counterexample: create with a persisted weight proof AND the
matching persisted peak block (equal weight, as a prior run leaves them)
completes without error, the verifier would derive a non-empty record
list from the proof, yet the in-memory block-record index and height map
are empty afterwards: the stale-proof guard of new_weight_proof fires
because the proof's tail weight is not strictly greater than the
persisted peak's weight. -/
theorem C3_counterexample :
    envC3.validate_weight_proof wpC3 = (true, [block_to_block_record a1Header]) ∧
    (create envC3 storeC3).2 = none ∧
    (create envC3 storeC3).1._block_records = [] ∧
    (create envC3 storeC3).1._height_to_hash = [] ∧
    (create envC3 storeC3).1._peak = some a1Header := by
  decide

/-- C3 (amended): create does pass the persisted weight proof to
new_weight_proof, but when a persisted peak of weight at least the
proof's tail weight is also present, the stale-proof guard makes the
call a no-op, so initialization completes with the in-memory indices
empty rather than rebuilt. -/
theorem C3_create_with_persisted_peak_noop (env : Env) (store : KeyValStore)
    (wp : WeightProof) (pk tail : HeaderBlock)
    (hwp : store.synced_weight_proof = some wp)
    (hpk : store.peak_block = some pk)
    (ht : wp.recent_chain_data.getLast? = some tail)
    (hle : tail.weight ≤ pk.weight) :
    (create env store).1._block_records = [] ∧
    (create env store).1._height_to_hash = [] ∧
    (create env store).1._peak = some pk ∧
    (create env store).1.synced_weight_proof = some wp ∧
    (create env store).2 = none := by
  unfold create
  dsimp only
  rw [hwp]
  dsimp only
  rw [new_weight_proof_stale env _ wp none pk tail
    (by unfold get_peak_block; dsimp only; rw [hpk]) ht hle]
  exact ⟨rfl, rfl, hpk, rfl, rfl⟩

/-- C3 witness: the amended no-op instantiated at the concrete restart
scenario. -/
theorem C3_witness :
    (create envC3 storeC3).1._block_records = [] ∧
    (create envC3 storeC3).1._height_to_hash = [] ∧
    (create envC3 storeC3).1._peak = some a1Header ∧
    (create envC3 storeC3).1.synced_weight_proof = some wpC3 ∧
    (create envC3 storeC3).2 = none :=
  C3_create_with_persisted_peak_noop envC3 storeC3 wpC3 a1Header a1Header
    rfl rfl rfl (by decide)

/-- C5: new_weight_proof with a proof whose tail weight is at most the
current peak's weight, when a peak exists, returns the state completely
unchanged (peak, height index, block records, latest timestamp, and
persisted objects) with no error, whether or not records are
supplied. -/
theorem C5_weight_proof_stale_noop (env : Env) (s : WalletBlockchain)
    (wp : WeightProof) (records : Option (List BlockRecord))
    (pk tail : HeaderBlock)
    (hpk : get_peak_block s = some pk)
    (ht : wp.recent_chain_data.getLast? = some tail)
    (hle : tail.weight ≤ pk.weight) :
    new_weight_proof env s wp records = (s, none) :=
  new_weight_proof_stale env s wp records pk tail hpk ht hle

/-- C5 witness: a stale proof (tail gBlock, weight 1) against the state
whose peak is gBlock (weight 1). -/
theorem C5_witness :
    new_weight_proof envC (receive_block envC s0 gBlock).1 wpG none
      = ((receive_block envC s0 gBlock).1, none) :=
  C5_weight_proof_stale_noop envC (receive_block envC s0 gBlock).1 wpG none
    gBlock gBlock (by decide) (by decide) (by decide)

/-- C10: when no peak has been set, get_peak_height returns 0, the same
value it returns when the peak is a genesis block at height 0, so the
two states are indistinguishable through this query. -/
theorem C10_no_peak_height_zero :
    (∀ s : WalletBlockchain, s._peak = none → get_peak_height s = 0) ∧
    get_peak_height s0 = 0 ∧
    (receive_block envC s0 gBlock).1._peak = some gBlock ∧
    gBlock.height = 0 ∧
    get_peak_height (receive_block envC s0 gBlock).1 = 0 := by
  refine ⟨?_, by decide, by decide, by decide, by decide⟩
  intro s h
  unfold get_peak_height
  rw [h]

/-- C10 witness: the uninitialized state maps to peak height 0. -/
theorem C10_witness : get_peak_height s0 = 0 :=
  C10_no_peak_height_zero.1 s0 rfl

/-- C4: monotonic weight adoption with strict tie-breaking.  (1) The
peak weight is non-decreasing over any sequence of receive_block calls;
(2) NEW_PEAK is only returned when there was no peak or the candidate
record's weight strictly exceeds the old peak's; (3) an equal-weight
candidate never changes the peak and never yields NEW_PEAK; (4) an
equal-weight candidate that is new and passes validation yields
ADDED_AS_ORPHAN. -/
theorem C4_monotonic_weight_adoption :
    (∀ (env : Env) (s : WalletBlockchain) (blocks : List HeaderBlock),
      peakWeight s ≤ peakWeight (runBlocks env s blocks)) ∧
    (∀ (env : Env) (s : WalletBlockchain) (block : HeaderBlock)
        (res : ReceiveBlockResult) (e : Option Err),
      (receive_block env s block).2 = Except.ok (res, e) →
      res = ReceiveBlockResult.NEW_PEAK →
      s._peak = none ∨
      ∃ p, s._peak = some p ∧ p.weight < (block_to_block_record block).weight) ∧
    (∀ (env : Env) (s : WalletBlockchain) (block : HeaderBlock) (p : HeaderBlock),
      s._peak = some p → (block_to_block_record block).weight = p.weight →
      (receive_block env s block).1._peak = s._peak ∧
      ∀ e2 : Option Err, (receive_block env s block).2
        ≠ Except.ok (ReceiveBlockResult.NEW_PEAK, e2)) ∧
    (∀ (env : Env) (s : WalletBlockchain) (block : HeaderBlock) (p : HeaderBlock)
        (ri : Nat),
      s._peak = some p → (block_to_block_record block).weight = p.weight →
      contains_block s block.header_hash = false →
      receive_block_validate env s block = Except.ok ri →
      (receive_block env s block).2
        = Except.ok (ReceiveBlockResult.ADDED_AS_ORPHAN, none)) := by
  refine ⟨fun env s blocks => peakWeight_runBlocks env s blocks, ?_, ?_, ?_⟩
  · intro env s block res e hres hnp
    subst hnp
    unfold receive_block at hres
    split at hres
    · simp at hres
    · split at hres
      · rename_i r hv
        obtain ⟨r1, r2⟩ := r
        have hs := receive_block_validate_error_shape env s block r1 r2 hv
        simp at hres
        rcases hs with h | h <;> rw [hres.1] at h <;> simp at h
      · exact receive_block_success_newpeak env s block e hres
  · intro env s block p hp hw
    have hle : ¬ p.weight < (block_to_block_record block).weight := by
      rw [hw]
      exact Nat.lt_irrefl _
    unfold receive_block
    split
    · exact ⟨rfl, by intro e2 h; simp at h⟩
    · split
      · rename_i r hv
        obtain ⟨r1, r2⟩ := r
        have hs := receive_block_validate_error_shape env s block r1 r2 hv
        refine ⟨rfl, ?_⟩
        intro e2 h
        simp at h
        rcases hs with hh | hh <;> rw [h.1] at hh <;> simp at hh
      · rw [receive_block_success_eq_weight env s block p hp hle]
        exact ⟨rfl, by intro e2 h; simp at h⟩
  · intro env s block p ri hp hw hc hv
    have hle : ¬ p.weight < (block_to_block_record block).weight := by
      rw [hw]
      exact Nat.lt_irrefl _
    unfold receive_block
    rw [if_neg (by simp [hc]), hv]
    dsimp only
    rw [receive_block_success_eq_weight env s block p hp hle]

/-- C4 witness: an equal-weight candidate (eqBlock, weight 1) against
the peak gBlock (weight 1) leaves the peak unchanged and is never
NEW_PEAK. -/
theorem C4_witness :
    (receive_block envC (receive_block envC s0 gBlock).1 eqBlock).1._peak
        = ((receive_block envC s0 gBlock).1)._peak ∧
    ∀ e2 : Option Err,
      (receive_block envC (receive_block envC s0 gBlock).1 eqBlock).2
        ≠ Except.ok (ReceiveBlockResult.NEW_PEAK, e2) :=
  C4_monotonic_weight_adoption.2.2.1 envC (receive_block envC s0 gBlock).1
    eqBlock gBlock (by decide) (by decide)

/-- C6 counterexample: receive_block on a block whose parent is unknown
completes with DISCONNECTED_BLOCK and no mutation; the claim predicts
the second identical call returns ALREADY_HAVE_BLOCK, but it returns
DISCONNECTED_BLOCK again, because a failed block is never added to the
index. -/
theorem C6_counterexample :
    (receive_block envC s0 bDisc).1 = s0 ∧
    (receive_block envC s0 bDisc).2
      = Except.ok (ReceiveBlockResult.DISCONNECTED_BLOCK,
          some Err.INVALID_PREV_BLOCK_HASH) ∧
    (receive_block envC (receive_block envC s0 bDisc).1 bDisc).2
      ≠ Except.ok (ReceiveBlockResult.ALREADY_HAVE_BLOCK, none) ∧
    (receive_block envC (receive_block envC s0 bDisc).1 bDisc).2
      = Except.ok (ReceiveBlockResult.DISCONNECTED_BLOCK,
          some Err.INVALID_PREV_BLOCK_HASH) := by
  decide

/-- C6 (amended): after a receive_block call that completed with a
result that added the block to the index (NEW_PEAK, ADDED_AS_ORPHAN, or
ALREADY_HAVE_BLOCK), calling receive_block again with the same header
block returns ALREADY_HAVE_BLOCK with no error code and mutates
nothing. -/
theorem C6_receive_block_idempotent_after_add (env : Env)
    (s : WalletBlockchain) (block : HeaderBlock)
    (res : ReceiveBlockResult) (e : Option Err)
    (hres : (receive_block env s block).2 = Except.ok (res, e))
    (hadd : res = ReceiveBlockResult.NEW_PEAK ∨
            res = ReceiveBlockResult.ADDED_AS_ORPHAN ∨
            res = ReceiveBlockResult.ALREADY_HAVE_BLOCK) :
    receive_block env ((receive_block env s block).1) block
      = ((receive_block env s block).1,
         Except.ok (ReceiveBlockResult.ALREADY_HAVE_BLOCK, none)) := by
  have hstep : ∀ t : WalletBlockchain,
      contains_block t block.header_hash = true →
      receive_block env t block
        = (t, Except.ok (ReceiveBlockResult.ALREADY_HAVE_BLOCK, none)) := by
    intro t ht
    unfold receive_block
    rw [if_pos ht]
  by_cases hc : contains_block s block.header_hash = true
  · have h1 := hstep s hc
    rw [h1]
    exact hstep s hc
  · have hcb : contains_block s block.header_hash = false :=
      Bool.eq_false_iff.mpr hc
    cases hv : receive_block_validate env s block with
    | error r =>
      have h1 : receive_block env s block = (s, Except.ok r) := by
        unfold receive_block
        rw [if_neg hc, hv]
      obtain ⟨r1, r2⟩ := r
      have hs := receive_block_validate_error_shape env s block r1 r2 hv
      rw [h1] at hres
      simp at hres
      rcases hs with hh | hh <;> rw [hres.1] at hh <;>
        rcases hadd with ha | ha | ha <;> rw [ha] at hh <;> simp at hh
    | ok ri =>
      have h1 : receive_block env s block = receive_block_success env s block := by
        unfold receive_block
        rw [if_neg hc, hv]
      have hcont : contains_block ((receive_block env s block).1) block.header_hash = true := by
        rw [h1]
        unfold contains_block
        rw [receive_block_success_records env s block, dictGet_insert_self]
        rfl
      exact hstep _ hcont

/-- C6 witness: re-receiving genesis after it was adopted as NEW_PEAK
yields ALREADY_HAVE_BLOCK and no mutation. -/
theorem C6_witness :
    receive_block envC ((receive_block envC s0 gBlock).1) gBlock
      = ((receive_block envC s0 gBlock).1,
         Except.ok (ReceiveBlockResult.ALREADY_HAVE_BLOCK, none)) :=
  C6_receive_block_idempotent_after_add envC s0 gBlock
    ReceiveBlockResult.NEW_PEAK none (by decide) (Or.inl rfl)

/-- C7: whenever receive_block returns DISCONNECTED_BLOCK or
INVALID_BLOCK, the state is completely unchanged: the record is not
inserted, the height map, peak, timestamp and persisted objects are
untouched, and no rollback has run. -/
theorem C7_validation_failure_no_mutation (env : Env) (s : WalletBlockchain)
    (block : HeaderBlock) (res : ReceiveBlockResult) (e : Option Err)
    (hres : (receive_block env s block).2 = Except.ok (res, e))
    (hfail : res = ReceiveBlockResult.DISCONNECTED_BLOCK ∨
             res = ReceiveBlockResult.INVALID_BLOCK) :
    (receive_block env s block).1 = s := by
  by_cases hc : contains_block s block.header_hash = true
  · have h1 : receive_block env s block
        = (s, Except.ok (ReceiveBlockResult.ALREADY_HAVE_BLOCK, none)) := by
      unfold receive_block
      rw [if_pos hc]
    rw [h1]
  · cases hv : receive_block_validate env s block with
    | error r =>
      have h1 : receive_block env s block = (s, Except.ok r) := by
        unfold receive_block
        rw [if_neg hc, hv]
      rw [h1]
    | ok ri =>
      have h1 : receive_block env s block = receive_block_success env s block := by
        unfold receive_block
        rw [if_neg hc, hv]
      rw [h1] at hres
      have h2 := receive_block_success_ok_shape env s block res e hres
      rcases h2.1 with hh | hh <;> rcases hfail with hf | hf <;>
        rw [hf] at hh <;> simp at hh

/-- C7 witness: the disconnected-block scenario leaves the fresh state
unchanged. -/
theorem C7_witness : (receive_block envC s0 bDisc).1 = s0 :=
  C7_validation_failure_no_mutation envC s0 bDisc
    ReceiveBlockResult.DISCONNECTED_BLOCK (some Err.INVALID_PREV_BLOCK_HASH)
    (by decide) (Or.inl rfl)

/-- C8: once the staleness guard passes (no peak, or a strictly heavier
tail), new_weight_proof stores and persists the weight proof before
invoking the verifier, so when verification fails (the fatal
AssertionError) the state returned carries the new, unverified proof
both in memory and in the store, with every other component
unchanged. -/
theorem C8_wp_persisted_before_verify (env : Env) (s : WalletBlockchain)
    (wp : WeightProof) (rs : List BlockRecord)
    (hguard : ∀ pk, get_peak_block s = some pk →
      ∃ tail, wp.recent_chain_data.getLast? = some tail ∧ pk.weight < tail.weight)
    (hfail : env.validate_weight_proof wp = (false, rs)) :
    new_weight_proof env s wp none
      = ({ s with
            synced_weight_proof := some wp,
            _basic_store := { s._basic_store with synced_weight_proof := some wp } },
         some PyErr.assertionError) := by
  have hbody : new_weight_proof_body env s wp none
      = ({ s with
            synced_weight_proof := some wp,
            _basic_store := { s._basic_store with synced_weight_proof := some wp } },
         some PyErr.assertionError) := by
    unfold new_weight_proof_body
    dsimp only
    rw [hfail]
  unfold new_weight_proof
  split
  · rename_i pk hpk
    obtain ⟨tail, htail, hlt⟩ := hguard pk hpk
    rw [htail]
    dsimp only
    rw [if_neg (Nat.not_le_of_gt hlt)]
    exact hbody
  · exact hbody

/-- C8 witness: a failing verifier on a fresh (peakless) state leaves
the new proof persisted and everything else unchanged. -/
theorem C8_witness :
    new_weight_proof envFail s0 wpA none
      = ({ s0 with
            synced_weight_proof := some wpA,
            _basic_store := { s0._basic_store with synced_weight_proof := some wpA } },
         some PyErr.assertionError) :=
  C8_wp_persisted_before_verify envFail s0 wpA []
    (fun _ hpk =>
      Option.noConfusion ((rfl : get_peak_block s0 = none).symm.trans hpk))
    rfl

/-- C9: latest-timestamp behaviour.  set_peak_block takes the explicit
timestamp when given, else the block's embedded transaction-block
timestamp, else leaves the value unchanged; receive_block never lowers
the timestamp from any state in which a missing peak implies timestamp
zero (in particular across successful chain-extending mutations); and
new_weight_proof computes its timestamp from the previous value as a
floor, so it never lowers it either. -/
theorem C9_latest_timestamp_monotone :
    (∀ (s : WalletBlockchain) (block : HeaderBlock) (t : Nat),
      (set_peak_block s block (some t))._latest_timestamp = t) ∧
    (∀ (s : WalletBlockchain) (block : HeaderBlock) (ftb : FoliageTransactionBlock),
      block.foliage_transaction_block = some ftb →
      (set_peak_block s block none)._latest_timestamp = ftb.timestamp) ∧
    (∀ (s : WalletBlockchain) (block : HeaderBlock),
      block.foliage_transaction_block = none →
      (set_peak_block s block none)._latest_timestamp = s._latest_timestamp) ∧
    (∀ (env : Env) (s : WalletBlockchain) (block : HeaderBlock),
      (s._peak = none → s._latest_timestamp = 0) →
      s._latest_timestamp ≤ ((receive_block env s block).1)._latest_timestamp) ∧
    (∀ (env : Env) (s : WalletBlockchain) (wp : WeightProof)
        (records : Option (List BlockRecord)),
      s._latest_timestamp ≤ ((new_weight_proof env s wp records).1)._latest_timestamp) := by
  refine ⟨fun s block t => rfl, ?_, ?_, ?_, ?_⟩
  · intro s block ftb h
    unfold set_peak_block
    dsimp only
    rw [h]
  · intro s block h
    unfold set_peak_block
    dsimp only
    rw [h]
  · intro env s block h0
    unfold receive_block
    split
    · exact Nat.le_refl _
    · split
      · exact Nat.le_refl _
      · exact receive_block_success_ts env s block h0
  · intro env s wp records
    exact new_weight_proof_ts env s wp records

/-- C9 witness: receiving genesis from the fresh state does not lower
the latest timestamp. -/
theorem C9_witness :
    s0._latest_timestamp ≤ ((receive_block envC s0 gBlock).1)._latest_timestamp :=
  C9_latest_timestamp_monotone.2.2.2.1 envC s0 gBlock (fun _ => rfl)

end Orchid

